import Mathlib

/-!
Shallow embedding of `src/index.tsx` (tooploox-github): a small UI that
looks up a GitHub user and shows the profile plus the top three
most-starred repositories.  The data model (interfaces `ResRepo`, `Repo`,
the `User`/`NotFound`/`Nothing` result classes, `AppState`), the two fetch
completions (`App.fetchUser`, `App.fetchRepos`) and the two render
visitors (`UserRenderVisitor`, `ReposRenderVisitor`) are translated into
pure Lean definitions; the network layer is abstracted as the decoded JSON
responses handed to the completion callbacks.
-/

namespace TooplooxGithub

/-- `interface ResRepo`: a repository record as decoded from the
repository-list endpoint, with fields `id` (string or number),
`html_url`, `name`, `stargazers_count`.  Star counts are nonnegative
integers, modelled as `Nat`. -/
structure ResRepo where
  id : Nat ⊕ String
  html_url : String
  name : String
  stargazers_count : Nat
deriving DecidableEq, Repr

/-- `interface Repo`: the minimal summary shape `{id, name, url}` kept in
application state. -/
structure Repo where
  id : Nat ⊕ String
  name : String
  url : String
deriving DecidableEq, Repr

/-- The `User` / `NotFound` / `Nothing` class hierarchy behind
`UserVisitor` double dispatch: exactly one variant is active, so it is a
plain sum.  `user` carries the `avatarUrl`, `name` and `bio` fields of
`class User`. -/
inductive UserResult where
  | user (avatarUrl : String) (name : String) (bio : String)
  | notFound
  | nothing
deriving DecidableEq, Repr

/-- The decoded JSON of the user-lookup endpoint.  A not-found reply is
`{message: "Not Found", ...}`; a profile record carries `avatar_url`,
`name`, `bio`, `repos_url`.  `message` is `none` when the field is absent
(JS `undefined`), so the code's check `res.message === "Not Found"` is
`message = some "Not Found"`. -/
structure UserRes where
  message : Option String
  avatar_url : String
  name : String
  bio : String
  repos_url : String
deriving DecidableEq, Repr

/-- `interface AppState`: the controller state `{user, repos}`. -/
structure AppState where
  user : UserResult
  repos : List Repo
deriving DecidableEq, Repr

/-- `App.state` initializer: `{user: new Nothing(), repos: []}`. -/
def initialState : AppState :=
  { user := .nothing, repos := [] }

/-- One insertion step of the stable descending sort performed by
`res.slice().sort((a, b) => b.stargazers_count - a.stargazers_count)`.
The element keeps moving right only past strictly higher star counts, so
on ties the earlier element stays first. -/
def insertByStars (x : ResRepo) : List ResRepo → List ResRepo
  | [] => [x]
  | y :: l =>
    if x.stargazers_count < y.stargazers_count then y :: insertByStars x l
    else x :: y :: l

/-- The stable sort by descending `stargazers_count`.
`Array.prototype.sort` is stable (ECMAScript 2019), and a stable sort is
determined by its comparator, so stable insertion sort embeds it
faithfully. -/
def sortByStars : List ResRepo → List ResRepo
  | [] => []
  | x :: l => insertByStars x (sortByStars l)

/-- The `.map` step of `fetchRepos`: `{id: repo.id, name: repo.name,
url: repo.html_url}`. -/
def toRepo (r : ResRepo) : Repo :=
  { id := r.id, name := r.name, url := r.html_url }

/-- The pure transformation inside `App.fetchRepos`:
`res.slice().sort((a, b) => b.stargazers_count - a.stargazers_count)
.map(...).slice(0, 3)`. -/
def fetchReposTransform (res : List ResRepo) : List Repo :=
  ((sortByStars res).map toRepo).take 3

/-- The completion callback of `App.fetchRepos`:
`this.setState({ repos })` — React's `setState` merges, so only the
`repos` field is replaced. -/
def fetchReposStep (res : List ResRepo) (s : AppState) : AppState :=
  { s with repos := fetchReposTransform res }

/-- The completion callback of `App.fetchUser`.  It returns the new state
together with the repository-list URL to fetch next: `none` models the
`return null` of the not-found branch (no repo fetch issued), and
`some url` models `return this.fetchRepos(res.repos_url)`.  Each branch
calls `setState` on the `user` field only. -/
def fetchUserStep (res : UserRes) (s : AppState) : AppState × Option String :=
  if res.message = some "Not Found" then
    ({ s with user := .notFound }, none)
  else
    ({ s with user := .user res.avatar_url res.name res.bio }, some res.repos_url)

/-- One full submission whose network responses are `ures` (user lookup)
and `rres` (repository list, only consulted when the user fetch
succeeds): `fetchUser` runs to completion, then `fetchRepos` if a URL was
returned.  Deterministic endpoints mean the same username always yields
the same pair of responses. -/
def submit (ures : UserRes) (rres : List ResRepo) (s : AppState) : AppState :=
  match fetchUserStep ures s with
  | (s1, none) => s1
  | (s1, some _) => fetchReposStep rres s1

/-- The profile markup produced by `UserRenderVisitor`: either the
avatar/name/bio fragment of `visitUser`, or one of the two
`warning-message` divs. -/
inductive ProfileView where
  | profile (avatarUrl : String) (name : String) (bio : String)
  | warning (msg : String)
deriving DecidableEq, Repr

/-- `UserRenderVisitor` dispatched through `accept`. -/
def userRenderVisitor : UserResult → ProfileView
  | .user a n b => .profile a n b
  | .notFound => .warning "User not found."
  | .nothing => .warning "You haven\x27t made any requests yet."

/-- `ReposRenderVisitor` dispatched through `accept`: on `visitUser` it
renders the section title `"Top repositories"` followed by one link per
stored repo (key `id`, href `url`, text `name`); `visitNotFound` and
`visitNothing` return `null`, modelled as `none`. -/
def reposRenderVisitor (repos : List Repo) : UserResult → Option (String × List Repo)
  | .user _ _ _ => some ("Top repositories", repos)
  | .notFound => none
  | .nothing => none

/-- The `user-section` part of `App.render`: the profile visitor and the
repo visitor (constructed fresh with the current repo list) applied to the
current result. -/
def renderUserSection (s : AppState) : ProfileView × Option (String × List Repo) :=
  (userRenderVisitor s.user, reposRenderVisitor s.repos s.user)

/-- The repository links visible in a rendered repo view (`null` renders
nothing). -/
def linksOf : Option (String × List Repo) → List Repo
  | none => []
  | some (_, ls) => ls

/-- States reachable from startup: the initializer, then any sequence of
`fetchUser` and `fetchRepos` completions. -/
inductive Reachable : AppState → Prop
  | init : Reachable initialState
  | userStep (res : UserRes) (s : AppState) :
      Reachable s → Reachable (fetchUserStep res s).1
  | repoStep (res : List ResRepo) (s : AppState) :
      Reachable s → Reachable (fetchReposStep res s)

lemma mem_insertByStars (x a : ResRepo) (l : List ResRepo) :
    a ∈ insertByStars x l ↔ a = x ∨ a ∈ l := by
  induction l with
  | nil => simp [insertByStars]
  | cons y l ih =>
    simp only [insertByStars]
    split
    · simp only [List.mem_cons, ih]
      tauto
    · simp only [List.mem_cons]

lemma perm_insertByStars (x : ResRepo) (l : List ResRepo) :
    List.Perm (insertByStars x l) (x :: l) := by
  induction l with
  | nil => simp [insertByStars]
  | cons y l ih =>
    simp only [insertByStars]
    split
    · exact (ih.cons y).trans (List.Perm.swap x y l)
    · exact List.Perm.refl _

lemma pairwise_insertByStars (x : ResRepo) (l : List ResRepo)
    (h : List.Pairwise (fun a b => b.stargazers_count ≤ a.stargazers_count) l) :
    List.Pairwise (fun a b => b.stargazers_count ≤ a.stargazers_count)
      (insertByStars x l) := by
  induction l with
  | nil => simp [insertByStars]
  | cons y l ih =>
    rcases List.pairwise_cons.mp h with ⟨hy, hl⟩
    simp only [insertByStars]
    split
    · rename_i hlt
      refine List.pairwise_cons.mpr ⟨?_, ih hl⟩
      intro a ha
      rcases (mem_insertByStars x a l).mp ha with rfl | ha
      · exact Nat.le_of_lt hlt
      · exact hy a ha
    · rename_i hnlt
      push_neg at hnlt
      refine List.pairwise_cons.mpr ⟨?_, h⟩
      intro a ha
      rcases List.mem_cons.mp ha with rfl | ha
      · exact hnlt
      · exact le_trans (hy a ha) hnlt

lemma filter_insertByStars (x : ResRepo) (l : List ResRepo) (s : Nat) :
    (insertByStars x l).filter (fun r => r.stargazers_count == s)
      = if x.stargazers_count == s then
          x :: l.filter (fun r => r.stargazers_count == s)
        else l.filter (fun r => r.stargazers_count == s) := by
  induction l with
  | nil =>
    by_cases hx : x.stargazers_count = s <;> simp [insertByStars, hx]
  | cons y l ih =>
    simp only [insertByStars]
    split
    · rename_i hlt
      by_cases hx : x.stargazers_count = s
      · have hy : ¬ y.stargazers_count = s := by omega
        simp [List.filter_cons, hx, hy, ih]
      · by_cases hy : y.stargazers_count = s <;>
          simp [List.filter_cons, hx, hy, ih]
    · by_cases hx : x.stargazers_count = s <;>
        by_cases hy : y.stargazers_count = s <;>
          simp [List.filter_cons, hx, hy]

lemma sortByStars_perm (l : List ResRepo) : List.Perm (sortByStars l) l := by
  induction l with
  | nil => simp [sortByStars]
  | cons x l ih =>
    exact (perm_insertByStars x (sortByStars l)).trans (ih.cons x)

lemma sortByStars_pairwise (l : List ResRepo) :
    List.Pairwise (fun a b => b.stargazers_count ≤ a.stargazers_count)
      (sortByStars l) := by
  induction l with
  | nil => simp [sortByStars]
  | cons x l ih => exact pairwise_insertByStars x (sortByStars l) ih

lemma sortByStars_filter (l : List ResRepo) (s : Nat) :
    (sortByStars l).filter (fun r => r.stargazers_count == s)
      = l.filter (fun r => r.stargazers_count == s) := by
  induction l with
  | nil => rfl
  | cons x l ih =>
    simp only [sortByStars, filter_insertByStars, ih, List.filter_cons]

/-- Claim C1: `fetchRepos` produces the input stably sorted descending by
`stargazers_count` (a permutation, sorted, and every star-count class kept
in original input order), mapped to the `{id, name, url = html_url}`
summary shape, truncated to the first 3 entries; in particular for star
counts `[5, 20, 20, 1, 9]` the result is the three highest-starred
entries, with the two 20-star entries in input order. -/
theorem fetchRepos_sort_map_truncate (res : List ResRepo) :
    fetchReposTransform res = ((sortByStars res).map toRepo).take 3
  ∧ List.Perm (sortByStars res) res
  ∧ List.Pairwise (fun a b => b.stargazers_count ≤ a.stargazers_count)
      (sortByStars res)
  ∧ (∀ s : Nat, (sortByStars res).filter (fun r => r.stargazers_count == s)
        = res.filter (fun r => r.stargazers_count == s))
  ∧ fetchReposTransform
      [⟨.inl 1, "u1", "r1", 5⟩, ⟨.inl 2, "u2", "r2", 20⟩,
       ⟨.inl 3, "u3", "r3", 20⟩, ⟨.inl 4, "u4", "r4", 1⟩,
       ⟨.inl 5, "u5", "r5", 9⟩]
      = [⟨.inl 2, "r2", "u2"⟩, ⟨.inl 3, "r3", "u3"⟩, ⟨.inl 5, "r5", "u5"⟩] := by
  exact ⟨rfl, sortByStars_perm res, sortByStars_pairwise res,
    sortByStars_filter res, rfl⟩

/-- Claim C2: `fetchUser` takes the not-found path exactly when the
response's `message` field is the exact string `"Not Found"`; that path
sets the state's result to `NotFound` and returns no repository URL, so
no repo fetch is issued. -/
theorem fetchUser_notFound_iff (res : UserRes) (s : AppState) :
    ((fetchUserStep res s).1.user = .notFound ∧ (fetchUserStep res s).2 = none)
      ↔ res.message = some "Not Found" := by
  by_cases h : res.message = some "Not Found" <;> simp [fetchUserStep, h]

/-- Claim C3: on any response that is not the not-found sentinel,
`fetchUser` sets the result to `Found` carrying exactly the response's
`avatar_url`, `name` and `bio`, and then invokes `fetchRepos` with the
response's `repos_url`. -/
theorem fetchUser_success_found_then_repos (res : UserRes) (s : AppState)
    (h : res.message ≠ some "Not Found") :
    (fetchUserStep res s).1.user = .user res.avatar_url res.name res.bio ∧
    (fetchUserStep res s).2 = some res.repos_url := by
  simp [fetchUserStep, h]

/-- Witness for C3 at a concrete successful response and the initial
state. -/
theorem fetchUser_success_found_then_repos_witness :
    (⟨none, "a", "n", "b", "r"⟩ : UserRes).message ≠ some "Not Found" ∧
    ((fetchUserStep ⟨none, "a", "n", "b", "r"⟩ initialState).1.user
        = .user "a" "n" "b" ∧
      (fetchUserStep ⟨none, "a", "n", "b", "r"⟩ initialState).2 = some "r") :=
  ⟨by decide, fetchUser_success_found_then_repos ⟨none, "a", "n", "b", "r"⟩
    initialState (by decide)⟩

/-- Counterexample to claim C4 as stated: after a successful user fetch
from a state holding repo summaries of an earlier lookup, and before the
repo fetch completes, the rendered repo view still shows the stale repo
link, so the intermediate rendered output does contain repo content. -/
theorem intermediate_render_stale_repos_counterexample :
    (⟨none, "a", "n", "b", "r"⟩ : UserRes).message ≠ some "Not Found" ∧
    linksOf (renderUserSection
        (fetchUserStep ⟨none, "a", "n", "b", "r"⟩
          ⟨.user "a0" "n0" "b0", [⟨.inl 1, "old-repo", "https://old"⟩]⟩).1).2
      ≠ [] := by
  decide

/-- Claim C4 amended: for a successful lookup whose completion finds the
repo list empty (as on the first lookup from the initial state), every
state between the user-fetch completion and the repo-fetch completion
renders exactly the response's avatar URL, name and bio in the profile
view, and the repo view shows no repository links (a repo list left by an
earlier lookup would instead remain rendered until the repo fetch
resolves). -/
theorem intermediate_render_of_empty_repos (res : UserRes) (s : AppState)
    (hm : res.message ≠ some "Not Found") (hr : s.repos = []) :
    renderUserSection (fetchUserStep res s).1
      = (.profile res.avatar_url res.name res.bio,
          some ("Top repositories", [])) := by
  simp [renderUserSection, fetchUserStep, userRenderVisitor,
    reposRenderVisitor, hm, hr]

/-- Witness for the amended C4 at a concrete successful response and the
initial state. -/
theorem intermediate_render_of_empty_repos_witness :
    (⟨none, "a", "n", "b", "r"⟩ : UserRes).message ≠ some "Not Found" ∧
    initialState.repos = [] ∧
    renderUserSection
        (fetchUserStep ⟨none, "a", "n", "b", "r"⟩ initialState).1
      = (.profile "a" "n" "b", some ("Top repositories", [])) :=
  ⟨by decide, rfl,
    intermediate_render_of_empty_repos ⟨none, "a", "n", "b", "r"⟩
      initialState (by decide) rfl⟩

/-- Claim C5: in every state whose result is `NotFound`, whatever the repo
list holds, the profile visitor renders the `"User not found."` message
and the repo visitor renders `null`. -/
theorem notFound_renders_message_and_null (repos : List Repo) :
    renderUserSection ⟨.notFound, repos⟩
      = (.warning "User not found.", none) := rfl

/-- Claim C6: the initial application state has the no-request-yet result
and an empty repo list, and its profile view is the
`"You haven't made any requests yet."` message. -/
theorem initialState_nothing_empty_message :
    initialState.user = .nothing ∧ initialState.repos = [] ∧
    (renderUserSection initialState).1
      = .warning "You haven\x27t made any requests yet." :=
  ⟨rfl, rfl, rfl⟩

/-- Claim C7: with deterministic endpoints (the same decoded responses on
both runs), submitting the same username twice in sequence, the second
submission after the first fully resolves, leaves the state of the first
submission unchanged. -/
theorem submit_idempotent (ures : UserRes) (rres : List ResRepo)
    (s : AppState) :
    submit ures rres (submit ures rres s) = submit ures rres s := by
  by_cases h : ures.message = some "Not Found" <;>
    simp [submit, fetchUserStep, fetchReposStep, h]

/-- Claim C8: a `fetchRepos` completion replaces exactly the `repos` field
with the computed summary sequence and leaves the `user` field
unchanged. -/
theorem fetchRepos_replaces_only_repos (res : List ResRepo) (s : AppState) :
    (fetchReposStep res s).user = s.user ∧
    (fetchReposStep res s).repos = fetchReposTransform res :=
  ⟨rfl, rfl⟩

/-- Claim C9: every reachable application state (the initial state closed
under `fetchUser` and `fetchRepos` completions) holds at most 3 repo
summaries. -/
theorem reachable_repos_length_le_three (s : AppState) (h : Reachable s) :
    s.repos.length ≤ 3 := by
  induction h with
  | init => simp [initialState]
  | userStep res s hr ih =>
    have hrep : (fetchUserStep res s).1.repos = s.repos := by
      by_cases hm : res.message = some "Not Found" <;> simp [fetchUserStep, hm]
    rw [hrep]
    exact ih
  | repoStep res s hr ih =>
    simp only [fetchReposStep, fetchReposTransform]
    simp [List.length_take]

/-- Witness for C9 at the initial state. -/
theorem reachable_repos_length_le_three_witness :
    Reachable initialState ∧ initialState.repos.length ≤ 3 :=
  ⟨Reachable.init, reachable_repos_length_le_three initialState Reachable.init⟩

/-- Claim C10: a not-found `fetchUser` completion leaves the `repos` field
untouched: summaries stored by an earlier successful lookup stay in state
rather than being reset to empty. -/
theorem fetchUser_notFound_preserves_repos (res : UserRes) (s : AppState)
    (h : res.message = some "Not Found") :
    (fetchUserStep res s).1.repos = s.repos := by
  simp [fetchUserStep, h]

/-- Witness for C10: a not-found completion over a state holding one repo
summary keeps that summary. -/
theorem fetchUser_notFound_preserves_repos_witness :
    (⟨some "Not Found", "", "", "", ""⟩ : UserRes).message = some "Not Found" ∧
    (fetchUserStep ⟨some "Not Found", "", "", "", ""⟩
        ⟨.user "a" "n" "b", [⟨.inl 7, "kept", "https://kept"⟩]⟩).1.repos
      = [⟨.inl 7, "kept", "https://kept"⟩] :=
  ⟨rfl, fetchUser_notFound_preserves_repos ⟨some "Not Found", "", "", "", ""⟩
    ⟨.user "a" "n" "b", [⟨.inl 7, "kept", "https://kept"⟩]⟩ rfl⟩

end TooplooxGithub
